import Mathlib

/-!
Formal model of the finance-tracker repository: the JSON-file-backed record
store (backend/internal/storage/datastore.go), the HTTP handler layer
(backend/internal/handlers/handlers.go), the validation rules
(internal/models), and the dashboard aggregation / NAV-refresh helpers
(frontend utils/calculations.js, services/mfApi.js, SummaryView).

Go float64 / JS number amounts are modelled as rationals; time.Now() values
are passed in as explicit string parameters; file persistence is modelled as
an explicit mirror record carried alongside the in-memory store.
-/

namespace FinanceTracker

/-- Investment record (models.Investment, full version with scheme code and
units used by the NAV-refresh path). -/
structure Investment where
  id : String
  name : String
  type : String
  invested : ℚ
  current : ℚ
  date : String
  schemeCode : String
  units : ℚ
  createdAt : String
  updatedAt : String
deriving DecidableEq, Repr

/-- Income record (models.Income). -/
structure Income where
  id : String
  source : String
  amount : ℚ
  category : String
  date : String
  addedBy : String
  paymentMethod : String
  createdAt : String
  updatedAt : String
deriving DecidableEq, Repr

/-- Expense record (models.Expense). -/
structure Expense where
  id : String
  desc : String
  amount : ℚ
  category : String
  date : String
  addedBy : String
  paymentMethod : String
  createdAt : String
  updatedAt : String
deriving DecidableEq, Repr

/-- Singleton settings record (models.Settings). -/
structure Settings where
  categories : List String
  investmentTypes : List String
  incomeCategories : List String
  paymentMethods : List String
  members : List String
deriving DecidableEq, Repr

/-- Export/backup bundle (models.ExportData). -/
structure ExportData where
  version : String
  exportedAt : String
  investments : List Investment
  incomes : List Income
  expenses : List Expense
  settings : Settings
deriving DecidableEq, Repr

/-- In-memory state of storage.DataStore (the four guarded collections). -/
structure DataStore where
  investments : List Investment
  incomes : List Income
  expenses : List Expense
  settings : Settings
deriving DecidableEq, Repr

/-- DataStore.GetExportData: snapshot of all four collections.  The Go zero
values of Version/ExportedAt are the empty string; the HTTP handler fills
them in afterwards and ImportData never reads them. -/
def getExportData (ds : DataStore) : ExportData :=
  { version := ""
    exportedAt := ""
    investments := ds.investments
    incomes := ds.incomes
    expenses := ds.expenses
    settings := ds.settings }

/-- DataStore.ImportData: each collection is replaced exactly when the
incoming one is non-empty (len > 0); settings is replaced exactly when the
incoming Categories list is non-empty. -/
def importData (ds : DataStore) (data : ExportData) : DataStore :=
  { investments := if data.investments.length > 0 then data.investments else ds.investments
    incomes := if data.incomes.length > 0 then data.incomes else ds.incomes
    expenses := if data.expenses.length > 0 then data.expenses else ds.expenses
    settings := if data.settings.categories.length > 0 then data.settings else ds.settings }

/-- The JSON file mirror kept by the Save* methods (one file per entity
type, plus settings.json). -/
structure Disk where
  investmentsFile : List Investment
  incomesFile : List Income
  expensesFile : List Expense
  settingsFile : Settings
deriving DecidableEq, Repr

/-- In-memory store together with its persisted file mirror. -/
structure ServerState where
  store : DataStore
  disk : Disk
deriving DecidableEq, Repr

/-- DataStore.SaveInvestments: write the in-memory collection to its file. -/
def saveInvestments (s : ServerState) : ServerState :=
  { s with disk := { s.disk with investmentsFile := s.store.investments } }

/-- DataStore.SaveIncomes: write the in-memory collection to its file. -/
def saveIncomes (s : ServerState) : ServerState :=
  { s with disk := { s.disk with incomesFile := s.store.incomes } }

/-- DataStore.SaveExpenses: write the in-memory collection to its file. -/
def saveExpenses (s : ServerState) : ServerState :=
  { s with disk := { s.disk with expensesFile := s.store.expenses } }

/-- DataStore.SaveSettings: write the in-memory settings to its file. -/
def saveSettings (s : ServerState) : ServerState :=
  { s with disk := { s.disk with settingsFile := s.store.settings } }

/-- Handler.ImportData (handlers.go): store.ImportData, then
SaveInvestments, SaveExpenses, SaveSettings.  The handler calls no
SaveIncomes step. -/
def importDataHandler (s : ServerState) (data : ExportData) : ServerState :=
  saveSettings (saveExpenses (saveInvestments
    { s with store := importData s.store data }))

/-- Concrete income used to exercise the import handler. -/
def incSalary : Income :=
  { id := "i1", source := "Salary", amount := 100, category := "Salary"
    date := "2025-01-01", addedBy := "Ravi", paymentMethod := "Online"
    createdAt := "2025-01-01T00:00:00Z", updatedAt := "2025-01-01T00:00:00Z" }

/-- Empty settings record (all lists empty). -/
def emptySettings : Settings :=
  { categories := [], investmentTypes := [], incomeCategories := []
    paymentMethods := [], members := [] }

/-- A server whose store and disk are both empty and in sync. -/
def emptyServer : ServerState :=
  { store := { investments := [], incomes := [], expenses := [], settings := emptySettings }
    disk := { investmentsFile := [], incomesFile := [], expensesFile := [], settingsFile := emptySettings } }

/-- Bundle carrying a single income and nothing else. -/
def incomeOnlyBundle : ExportData :=
  { version := "1.0", exportedAt := "2025-02-01T00:00:00Z"
    investments := [], incomes := [incSalary], expenses := []
    settings := emptySettings }

/-- C1: Export→Import round-trip: importing the bundle produced by exporting
a store back into that store leaves every collection (investments, incomes,
expenses, settings) element-wise equal to what it was. -/
theorem importData_export_roundtrip (ds : DataStore) :
    importData ds (getExportData ds) = ds := by
  cases ds
  simp [importData, getExportData]

/-- C2: ImportData replaces each of the three entity collections exactly when
the incoming one is non-empty, and replaces settings exactly when the
incoming category list is non-empty; an empty incoming array leaves the
corresponding collection untouched. -/
theorem importData_replace_iff_nonempty (ds : DataStore) (data : ExportData) :
    (importData ds data).investments
        = (if data.investments = [] then ds.investments else data.investments)
    ∧ (importData ds data).incomes
        = (if data.incomes = [] then ds.incomes else data.incomes)
    ∧ (importData ds data).expenses
        = (if data.expenses = [] then ds.expenses else data.expenses)
    ∧ (importData ds data).settings
        = (if data.settings.categories = [] then ds.settings else data.settings) := by
  refine ⟨?_, ?_, ?_, ?_⟩
  · cases h : data.investments <;> simp [importData, h]
  · cases h : data.incomes <;> simp [importData, h]
  · cases h : data.expenses <;> simp [importData, h]
  · cases h : data.settings.categories <;> simp [importData, h]

/-- C3: the import handler replaces the incomes collection in memory but
never writes it back to its file: after importing a bundle whose only
non-empty collection is incomes, the in-memory store holds the new income
while the incomes file still holds the old (empty) contents. -/
theorem importHandler_incomes_not_persisted :
    (importDataHandler emptyServer incomeOnlyBundle).store.incomes = [incSalary]
    ∧ (importDataHandler emptyServer incomeOnlyBundle).disk.incomesFile = [] := by
  constructor <;> rfl

/-- Investment.Validate (models): the checks run in source order — name,
type, invested amount, current value, date — and the first failure wins. -/
def Investment.validate (inv : Investment) : Option String :=
  if inv.name = "" then some "investment name is required"
  else if inv.type = "" then some "investment type is required"
  else if inv.invested ≤ 0 then some "invested amount must be greater than 0"
  else if inv.current < 0 then some "current value cannot be negative"
  else if inv.date = "" then some "investment date is required"
  else none

/-- DataStore.AddInvestment: validate, then append.  The result pairs the
collection after the call with the returned error (none on success). -/
def addInvestment (invs : List Investment) (inv : Investment) :
    List Investment × Option String :=
  match inv.validate with
  | some e => (invs, some ("invalid investment: " ++ e))
  | none => (invs ++ [inv], none)

/-- The replacement loop of DataStore.UpdateInvestment: walk the slice, swap
the first element whose id matches, report not-found when none does. -/
def replaceById : List Investment → String → Investment → List Investment × Option String
  | [], _, _ => ([], some "investment not found")
  | inv :: rest, id, upd =>
    if inv.id = id then (upd :: rest, none)
    else
      match replaceById rest id upd with
      | (r, e) => (inv :: r, e)

/-- DataStore.UpdateInvestment: validate the incoming record first, then run
the replacement loop. -/
def updateInvestment (invs : List Investment) (id : String) (upd : Investment) :
    List Investment × Option String :=
  match upd.validate with
  | some e => (invs, some ("invalid investment: " ++ e))
  | none => replaceById invs id upd

lemma validate_eq_none_iff (inv : Investment) :
    inv.validate = none
      ↔ ¬(inv.name = "" ∨ inv.type = "" ∨ inv.invested ≤ 0
            ∨ inv.current < 0 ∨ inv.date = "") := by
  unfold Investment.validate
  split_ifs with h1 h2 h3 h4 h5 <;> simp_all

lemma replaceById_err_unchanged (invs : List Investment) (id : String)
    (upd : Investment) (h : (replaceById invs id upd).2.isSome) :
    (replaceById invs id upd).1 = invs := by
  induction invs with
  | nil => rfl
  | cons a rest ih =>
    by_cases ha : a.id = id
    · simp [replaceById, ha] at h
    · simp only [replaceById, if_neg ha] at h ⊢
      rw [ih h]

lemma replaceById_absent (invs : List Investment) (id : String)
    (upd : Investment) (h : ∀ inv ∈ invs, inv.id ≠ id) :
    replaceById invs id upd = (invs, some "investment not found") := by
  induction invs with
  | nil => rfl
  | cons a rest ih =>
    have ha : a.id ≠ id := h a (by simp)
    simp only [replaceById, if_neg ha]
    rw [ih (fun inv hm => h inv (by simp [hm]))]

/-- A bad record: empty name, everything else well-formed. -/
def invNoName : Investment :=
  { id := "z", name := "", type := "FD", invested := 1, current := 0
    date := "2025-01-01", schemeCode := "", units := 0
    createdAt := "", updatedAt := "" }

/-- C5 counterexample: updating an absent id with an invalid record does not
fail with the not-found error — validation runs first, so the call returns a
validation error even though the id is nowhere in the collection. -/
theorem update_absent_id_not_notfound :
    (updateInvestment [] "x" invNoName).2 ≠ some "investment not found"
    ∧ (updateInvestment [] "x" invNoName).2
        = some "invalid investment: investment name is required" := by
  constructor <;> decide

/-- C5 (amended): UpdateInvestment validates the incoming record before the
id lookup — an invalid record fails with a validation error even when the id
is absent; a valid record with an absent id fails with not-found; and in
every failing case the collection is left completely unchanged. -/
theorem updateInvestment_failure_semantics (invs : List Investment)
    (id : String) (upd : Investment) :
    ((updateInvestment invs id upd).2.isSome → (updateInvestment invs id upd).1 = invs)
    ∧ (upd.validate = none → (∀ inv ∈ invs, inv.id ≠ id) →
        updateInvestment invs id upd = (invs, some "investment not found"))
    ∧ (∀ e, upd.validate = some e →
        updateInvestment invs id upd = (invs, some ("invalid investment: " ++ e))) := by
  refine ⟨?_, ?_, ?_⟩
  · intro h
    unfold updateInvestment at h ⊢
    cases hv : upd.validate with
    | some e => simp [hv]
    | none =>
      simp only [hv] at h ⊢
      exact replaceById_err_unchanged invs id upd h
  · intro hv habs
    unfold updateInvestment
    rw [hv]
    exact replaceById_absent invs id upd habs
  · intro e hv
    unfold updateInvestment
    rw [hv]

/-- A valid record used to witness the amended update semantics. -/
def invGood : Investment :=
  { id := "g", name := "Fund A", type := "Mutual Fund", invested := 10000
    current := 10000, date := "2025-01-01", schemeCode := "", units := 0
    createdAt := "", updatedAt := "" }

/-- Witness for C5 (amended): a valid record aimed at an id that is absent
from the empty collection fails with not-found and changes nothing. -/
theorem updateInvestment_failure_semantics_witness :
    updateInvestment [] "x" invGood = ([], some "investment not found") :=
  (updateInvestment_failure_semantics [] "x" invGood).2.1 (by decide) (by simp)

/-- Tiny valid investment: invested amount one paisa, current value zero. -/
def invOnePaisa : Investment :=
  { id := "", name := "A", type := "FD", invested := 1/100, current := 0
    date := "2025-01-01", schemeCode := "", units := 0
    createdAt := "", updatedAt := "" }

/-- C6: AddInvestment fails with a validation error exactly when the name,
type or date is empty, the invested amount is ≤ 0, or the current value is
negative; otherwise it appends the record unchanged.  In particular a record
with invested = 0.01 and current = 0 is accepted. -/
theorem addInvestment_validation (invs : List Investment) (inv : Investment) :
    (if inv.name = "" ∨ inv.type = "" ∨ inv.invested ≤ 0
        ∨ inv.current < 0 ∨ inv.date = ""
      then ∃ e, addInvestment invs inv = (invs, some e)
      else addInvestment invs inv = (invs ++ [inv], none))
    ∧ addInvestment [] invOnePaisa = ([invOnePaisa], none) := by
  constructor
  · by_cases hd : inv.name = "" ∨ inv.type = "" ∨ inv.invested ≤ 0
        ∨ inv.current < 0 ∨ inv.date = ""
    · rw [if_pos hd]
      have hne : inv.validate ≠ none :=
        fun h0 => ((validate_eq_none_iff inv).mp h0) hd
      obtain ⟨e, he⟩ := Option.ne_none_iff_exists'.mp hne
      exact ⟨"invalid investment: " ++ e, by unfold addInvestment; rw [he]⟩
    · rw [if_neg hd]
      have h0 : inv.validate = none := (validate_eq_none_iff inv).mpr hd
      unfold addInvestment
      rw [h0]
  · have h0 : invOnePaisa.validate = none := by
      unfold Investment.validate invOnePaisa
      norm_num
      decide
    unfold addInvestment
    rw [h0]
    rfl

/-- Handler.CreateInvestment: assign a fresh id, set createdAt and updatedAt
to now, validate, add to the store.  On success the response carries the
stored record. -/
def createInvestmentHandler (newId now : String) (invs : List Investment)
    (body : Investment) : Except String (List Investment × Investment) :=
  let inv := { body with id := newId, createdAt := now, updatedAt := now }
  match inv.validate with
  | some e => Except.error ("Validation error: " ++ e)
  | none =>
    match addInvestment invs inv with
    | (_, some e) => Except.error ("Failed to add investment: " ++ e)
    | (invs2, none) => Except.ok (invs2, inv)

/-- Handler.UpdateInvestment: look up the original to preserve its creation
time, force the path id onto the payload, stamp updatedAt, validate, then
run the store update. -/
def updateInvestmentHandler (now : String) (invs : List Investment)
    (id : String) (body : Investment) : Except String (List Investment × Investment) :=
  match invs.find? (fun x => x.id == id) with
  | none => Except.error "Investment not found"
  | some original =>
    let upd := { body with id := id, createdAt := original.createdAt, updatedAt := now }
    match upd.validate with
    | some e => Except.error ("Validation error: " ++ e)
    | none =>
      match updateInvestment invs id upd with
      | (_, some e) => Except.error ("Failed to update investment: " ++ e)
      | (invs2, none) => Except.ok (invs2, upd)

/-- One iteration of the Handler.RefreshNAV loop: skip entries with an empty
id, stamp updatedAt with now, run the store update (which validates and
swaps in place), count it when the store call succeeds. -/
def refreshNAVStep (now : String) (acc : List Investment × Nat)
    (u : Investment) : List Investment × Nat :=
  if u.id = "" then acc
  else
    match updateInvestment acc.1 u.id { u with updatedAt := now } with
    | (invs2, some _) => (invs2, acc.2)
    | (invs2, none) => (invs2, acc.2 + 1)

/-- Handler.RefreshNAV: fold the step over the client-supplied updates,
starting from the stored collection and a zero success count. -/
def refreshNAV (now : String) (invs : List Investment)
    (updates : List Investment) : List Investment × Nat :=
  updates.foldl (refreshNAVStep now) (invs, 0)

lemma replaceById_ok_find (invs : List Investment) (id : String)
    (upd : Investment) (invs2 : List Investment) (hid : upd.id = id)
    (h : replaceById invs id upd = (invs2, none)) :
    invs2.find? (fun x => x.id == id) = some upd := by
  induction invs generalizing invs2 with
  | nil => simp [replaceById] at h
  | cons a rest ih =>
    by_cases ha : a.id = id
    · simp only [replaceById, if_pos ha] at h
      obtain ⟨h1, _⟩ := Prod.mk.injEq .. ▸ h
      subst h1
      simp [List.find?, hid]
    · simp only [replaceById, if_neg ha] at h
      cases hr : replaceById rest id upd with
      | mk r e =>
        rw [hr] at h
        obtain ⟨h1, h2⟩ := Prod.mk.injEq .. ▸ h
        subst h2
        subst h1
        have hb : (a.id == id) = false := beq_eq_false_iff_ne.mpr ha
        simp only [List.find?, hb]
        exact ih r hr

/-- The record already in the store before the refresh. -/
def invStored : Investment :=
  { id := "a", name := "Fund A", type := "Mutual Fund", invested := 10000
    current := 10000, date := "2025-01-01", schemeCode := "100001", units := 0
    createdAt := "2025-01-01T00:00:00Z", updatedAt := "2025-01-01T00:00:00Z" }

/-- Refresh payload for the same id, carrying a different createdAt. -/
def invPayload : Investment :=
  { id := "a", name := "Fund A", type := "Mutual Fund", invested := 10000
    current := 11000, date := "2025-01-01", schemeCode := "100001", units := 0
    createdAt := "1999-12-31T00:00:00Z", updatedAt := "2025-01-01T00:00:00Z" }

/-- C4 counterexample: the NAV-refresh handler overwrites the stored
record's createdAt with the payload's value — after refreshing with a
payload whose createdAt differs, the collection's createdAt list changes. -/
theorem refreshNAV_changes_createdAt :
    (refreshNAV "2025-02-01T00:00:00Z" [invStored] [invPayload]).1.map Investment.createdAt
      = ["1999-12-31T00:00:00Z"]
    ∧ [invStored].map Investment.createdAt = ["2025-01-01T00:00:00Z"] := by
  constructor <;> decide

/-- C4 (amended): createdAt is server-set at creation and preserved by the
update handler, and updatedAt is stamped with now on create, update and each
applied NAV-refresh entry; the NAV-refresh handler, however, stores the
payload's createdAt verbatim, so a refresh changes createdAt whenever the
client sends a value differing from the stored one. -/
theorem investment_timestamp_semantics (now : String) (invs : List Investment) :
    (∀ newId body st1 inv1,
        createInvestmentHandler newId now invs body = Except.ok (st1, inv1) →
        inv1.createdAt = now ∧ inv1.updatedAt = now)
    ∧ (∀ id body orig st2 inv2,
        invs.find? (fun x => x.id == id) = some orig →
        updateInvestmentHandler now invs id body = Except.ok (st2, inv2) →
        inv2.createdAt = orig.createdAt ∧ inv2.updatedAt = now)
    ∧ (∀ u st3, u.id ≠ "" → refreshNAV now invs [u] = (st3, 1) →
        st3.find? (fun x => x.id == u.id) = some { u with updatedAt := now }) := by
  refine ⟨?_, ?_, ?_⟩
  · intro newId body st1 inv1 h
    simp only [createInvestmentHandler] at h
    split at h
    · exact absurd h (by simp)
    · rename_i hv
      simp only [addInvestment, hv] at h
      simp only [Except.ok.injEq, Prod.mk.injEq] at h
      rw [← h.2]
      exact ⟨rfl, rfl⟩
  · intro id body orig st2 inv2 hfind h
    simp only [updateInvestmentHandler, hfind] at h
    split at h
    · exact absurd h (by simp)
    · rename_i hv
      simp only [updateInvestment, hv] at h
      split at h
      · exact absurd h (by simp)
      · simp only [Except.ok.injEq, Prod.mk.injEq] at h
        rw [← h.2]
        exact ⟨rfl, rfl⟩
  · intro u st3 hu h
    simp only [refreshNAV, List.foldl, refreshNAVStep, if_neg hu] at h
    split at h
    · exact absurd h (by simp)
    · rename_i invs2 heq
      simp only [Prod.mk.injEq] at h
      simp only [updateInvestment] at heq
      split at heq
      · exact absurd heq (by simp)
      · rw [← h.1]
        exact replaceById_ok_find invs u.id _ invs2 rfl heq

/-- The refresh payload after the handler stamps its updatedAt. -/
def invApplied : Investment :=
  { invPayload with updatedAt := "2025-02-01T00:00:00Z" }

/-- Witness for C4 (amended): a concrete single-entry NAV refresh lands the
payload record, stamped with the new updatedAt, in the store. -/
theorem investment_timestamp_semantics_witness :
    List.find? (fun x => x.id == invPayload.id) [invApplied] = some invApplied :=
  (investment_timestamp_semantics "2025-02-01T00:00:00Z" [invStored]).2.2
    invPayload [invApplied] (by decide) (by decide)

/-- calculations.js calculateTotalInvested: reduce over the list summing the
invested amounts from 0. -/
def calculateTotalInvested (invs : List Investment) : ℚ :=
  invs.foldl (fun sum inv => sum + inv.invested) 0

/-- calculations.js calculateTotalCurrent: reduce summing current values. -/
def calculateTotalCurrent (invs : List Investment) : ℚ :=
  invs.foldl (fun sum inv => sum + inv.current) 0

/-- calculations.js calculateTotalGain: total current minus total invested. -/
def calculateTotalGain (invs : List Investment) : ℚ :=
  calculateTotalCurrent invs - calculateTotalInvested invs

/-- calculations.js calculateGainPercentage: gain over invested times 100,
guarded so that a non-positive total invested yields 0. -/
def calculateGainPercentage (invs : List Investment) : ℚ :=
  if calculateTotalInvested invs > 0 then
    calculateTotalGain invs / calculateTotalInvested invs * 100
  else 0

/-- calculations.js calculateMonthlyExpenses: keep the expenses whose date
starts with the month key, sum their amounts. -/
def calculateMonthlyExpenses (expenses : List Expense) (month : String) : ℚ :=
  (expenses.filter (fun exp => exp.date.startsWith month)).foldl
    (fun sum exp => sum + exp.amount) 0

/-- SummaryView.jsx net-total computation: income summed over all entries,
expenses restricted to the current month, savings clamping the investment
gain at zero from below via the ternary on totalGain ≥ 0. -/
def summaryNetTotal (invs : List Investment) (incomes : List Income)
    (expenses : List Expense) (currentMonth : String) : ℚ :=
  let totalInvested := calculateTotalInvested invs
  let totalGain := calculateTotalGain invs
  let totalIncome := incomes.foldl (fun sum inc => sum + inc.amount) 0
  let totalExpenses := calculateMonthlyExpenses expenses currentMonth
  let totalSavings := if totalGain ≥ 0 then totalGain else 0
  totalIncome - totalExpenses - totalInvested + totalSavings

lemma foldl_add_shift {α : Type} (f : α → ℚ) (l : List α) (c : ℚ) :
    l.foldl (fun sum x => sum + f x) c = c + l.foldl (fun sum x => sum + f x) 0 := by
  induction l generalizing c with
  | nil => simp
  | cons a t ih => simp only [List.foldl]; rw [ih, ih (0 + f a)]; ring

/-- Two-investment sample from the spec's gain-math example. -/
def invGain : Investment :=
  { id := "p1", name := "P1", type := "Stocks", invested := 1000, current := 1200
    date := "2025-01-01", schemeCode := "", units := 0
    createdAt := "", updatedAt := "" }

/-- Second sample investment, currently at a loss. -/
def invLoss : Investment :=
  { id := "p2", name := "P2", type := "Gold", invested := 500, current := 400
    date := "2025-01-01", schemeCode := "", units := 0
    createdAt := "", updatedAt := "" }

/-- C7: calculateGainPercentage equals (TotalCurrent − TotalInvested) /
TotalInvested × 100 whenever the total invested is positive, and equals 0
whenever it is not — in particular on the empty list — so a division by zero
can never occur. -/
theorem gainPercentage_spec (invs : List Investment) :
    (calculateTotalInvested invs > 0 →
      calculateGainPercentage invs
        = (calculateTotalCurrent invs - calculateTotalInvested invs)
            / calculateTotalInvested invs * 100)
    ∧ (¬ calculateTotalInvested invs > 0 → calculateGainPercentage invs = 0)
    ∧ calculateGainPercentage [] = 0 := by
  refine ⟨?_, ?_, ?_⟩
  · intro h
    simp [calculateGainPercentage, calculateTotalGain, if_pos h]
  · intro h
    simp [calculateGainPercentage, if_neg h]
  · decide

/-- Witness for C7: on the spec's sample portfolio the total invested 1500
is positive and the gain percentage is the gain formula's value. -/
theorem gainPercentage_spec_witness :
    calculateGainPercentage [invGain, invLoss]
      = (calculateTotalCurrent [invGain, invLoss] - calculateTotalInvested [invGain, invLoss])
          / calculateTotalInvested [invGain, invLoss] * 100 :=
  (gainPercentage_spec [invGain, invLoss]).1
    (by norm_num [calculateTotalInvested, List.foldl, invGain, invLoss])

/-- C8: the dashboard net total is exactly
totalIncome − totalExpenses − totalInvested + max(totalGain, 0); a negative
total gain therefore contributes nothing to the net position. -/
theorem summaryNetTotal_formula (invs : List Investment) (incomes : List Income)
    (expenses : List Expense) (currentMonth : String) :
    summaryNetTotal invs incomes expenses currentMonth
      = incomes.foldl (fun sum inc => sum + inc.amount) 0
          - calculateMonthlyExpenses expenses currentMonth
          - calculateTotalInvested invs
          + max (calculateTotalGain invs) 0 := by
  have hmax : (if calculateTotalGain invs ≥ 0 then calculateTotalGain invs else 0)
      = max (calculateTotalGain invs) 0 := by
    by_cases h : calculateTotalGain invs ≥ 0
    · rw [if_pos h, max_eq_left h]
    · rw [if_neg h, max_eq_right (le_of_lt (lt_of_not_ge h))]
  simp only [summaryNetTotal, hmax]

/-- One step of the groupInvestmentsByType reduce: add the investment's
amounts into the bucket for its literal type string, creating the bucket
with zeroed sums when absent (JS object key insertion). -/
def addToTypeBucket : List (String × ℚ × ℚ) → Investment → List (String × ℚ × ℚ)
  | [], inv => [(inv.type, inv.invested, inv.current)]
  | e :: rest, inv =>
    if e.1 = inv.type then (e.1, e.2.1 + inv.invested, e.2.2 + inv.current) :: rest
    else e :: addToTypeBucket rest inv

/-- calculations.js groupInvestmentsByType: reduce over the list from an
empty bucket map (modelled as an association list in key insertion order). -/
def groupInvestmentsByType (invs : List Investment) : List (String × ℚ × ℚ) :=
  invs.foldl addToTypeBucket []

/-- Total of the per-bucket invested sums. -/
def bucketsInvested (l : List (String × ℚ × ℚ)) : ℚ :=
  (l.map (fun e => e.2.1)).sum

/-- Total of the per-bucket current-value sums. -/
def bucketsCurrent (l : List (String × ℚ × ℚ)) : ℚ :=
  (l.map (fun e => e.2.2)).sum

lemma addToTypeBucket_invested (acc : List (String × ℚ × ℚ)) (inv : Investment) :
    bucketsInvested (addToTypeBucket acc inv) = bucketsInvested acc + inv.invested := by
  induction acc with
  | nil => simp [addToTypeBucket, bucketsInvested]
  | cons e rest ih =>
    by_cases he : e.1 = inv.type
    · simp only [addToTypeBucket, if_pos he, bucketsInvested, List.map, List.sum_cons]
      ring
    · simp only [addToTypeBucket, if_neg he, bucketsInvested, List.map, List.sum_cons] at ih ⊢
      rw [ih]
      ring

lemma addToTypeBucket_current (acc : List (String × ℚ × ℚ)) (inv : Investment) :
    bucketsCurrent (addToTypeBucket acc inv) = bucketsCurrent acc + inv.current := by
  induction acc with
  | nil => simp [addToTypeBucket, bucketsCurrent]
  | cons e rest ih =>
    by_cases he : e.1 = inv.type
    · simp only [addToTypeBucket, if_pos he, bucketsCurrent, List.map, List.sum_cons]
      ring
    · simp only [addToTypeBucket, if_neg he, bucketsCurrent, List.map, List.sum_cons] at ih ⊢
      rw [ih]
      ring

lemma groupByType_fold_invested (invs : List Investment)
    (acc : List (String × ℚ × ℚ)) :
    bucketsInvested (invs.foldl addToTypeBucket acc)
      = bucketsInvested acc + calculateTotalInvested invs := by
  induction invs generalizing acc with
  | nil => simp [calculateTotalInvested]
  | cons i t ih =>
    simp only [List.foldl, calculateTotalInvested]
    rw [ih, addToTypeBucket_invested, foldl_add_shift (fun x => x.invested) t (0 + i.invested)]
    simp only [calculateTotalInvested]
    ring

lemma groupByType_fold_current (invs : List Investment)
    (acc : List (String × ℚ × ℚ)) :
    bucketsCurrent (invs.foldl addToTypeBucket acc)
      = bucketsCurrent acc + calculateTotalCurrent invs := by
  induction invs generalizing acc with
  | nil => simp [calculateTotalCurrent]
  | cons i t ih =>
    simp only [List.foldl, calculateTotalCurrent]
    rw [ih, addToTypeBucket_current, foldl_add_shift (fun x => x.current) t (0 + i.current)]
    simp only [calculateTotalCurrent]
    ring

/-- C10: every investment lands in exactly one bucket keyed by its literal
type string — an empty type accumulates under the empty-string key rather
than being skipped or renamed — so the per-type invested and current sums
add up to the whole list's totals. -/
theorem groupByType_preserves_totals (invs : List Investment) :
    bucketsInvested (groupInvestmentsByType invs) = calculateTotalInvested invs
    ∧ bucketsCurrent (groupInvestmentsByType invs) = calculateTotalCurrent invs
    ∧ (∀ inv : Investment, inv.type = "" →
        groupInvestmentsByType [inv] = [("", inv.invested, inv.current)]) := by
  refine ⟨?_, ?_, ?_⟩
  · rw [groupInvestmentsByType, groupByType_fold_invested]
    simp [bucketsInvested]
  · rw [groupInvestmentsByType, groupByType_fold_current]
    simp [bucketsCurrent]
  · intro inv ht
    simp [groupInvestmentsByType, addToTypeBucket, ht]

/-- Investment whose type is the empty string. -/
def invUntyped : Investment :=
  { id := "u", name := "U", type := "", invested := 7, current := 9
    date := "2025-01-01", schemeCode := "", units := 0
    createdAt := "", updatedAt := "" }

/-- Witness for C10: the empty-typed investment is accumulated under the
empty-string bucket with its own amounts. -/
theorem groupByType_preserves_totals_witness :
    groupInvestmentsByType [invUntyped] = [("", invUntyped.invested, invUntyped.current)] :=
  (groupByType_preserves_totals []).2.2 invUntyped rfl

/-- mfApi.js calculateUnits: invested divided by the purchase NAV, 0 when
either is zero (JS falsy guard) so a zero NAV never divides. -/
def calculateUnits (investedAmount nav : ℚ) : ℚ :=
  if investedAmount = 0 ∨ nav = 0 then 0 else investedAmount / nav

/-- mfApi.js calculateCurrentValue: units times the current NAV, 0 when
either is zero (JS falsy guard). -/
def calculateCurrentValue (units currentNav : ℚ) : ℚ :=
  if units = 0 ∨ currentNav = 0 then 0 else units * currentNav

/-- mfApi.js refreshInvestmentNAV, with the two price lookups injected.  An
unavailable price is none; a fetched price of 0 is JS-falsy and is likewise
treated as a failed lookup.  Every failure path returns the investment
untouched. -/
def refreshInvestmentNAV (latestNAV : String → Option ℚ)
    (navOnDate : String → String → Option ℚ) (inv : Investment) : Investment :=
  if inv.schemeCode = "" then inv
  else
    match latestNAV inv.schemeCode with
    | none => inv
    | some nav =>
      if nav = 0 then inv
      else if inv.units > 0 then
        { inv with current := calculateCurrentValue inv.units nav }
      else if inv.invested ≠ 0 ∧ inv.date ≠ "" then
        match navOnDate inv.schemeCode inv.date with
        | none => inv
        | some pnav =>
          if pnav = 0 then inv
          else
            { inv with
                units := calculateUnits inv.invested pnav
                current := calculateCurrentValue (calculateUnits inv.invested pnav) nav }
      else inv

/-- C9: when a required price lookup fails — the latest price is
unavailable, or the investment has no recorded units and the purchase-date
price is unavailable — refreshInvestmentNAV returns the original investment
with every field unchanged, so one failed lookup never alters that record. -/
theorem refreshInvestmentNAV_skip_on_failure (latestNAV : String → Option ℚ)
    (navOnDate : String → String → Option ℚ) (inv : Investment) :
    (latestNAV inv.schemeCode = none →
      refreshInvestmentNAV latestNAV navOnDate inv = inv)
    ∧ (¬ inv.units > 0 → navOnDate inv.schemeCode inv.date = none →
      refreshInvestmentNAV latestNAV navOnDate inv = inv) := by
  constructor
  · intro hl
    by_cases hs : inv.schemeCode = ""
    · simp [refreshInvestmentNAV, hs]
    · simp [refreshInvestmentNAV, hs, hl]
  · intro hu hd
    by_cases hs : inv.schemeCode = ""
    · simp [refreshInvestmentNAV, hs]
    · cases hl : latestNAV inv.schemeCode with
      | none => simp [refreshInvestmentNAV, hs, hl]
      | some nav =>
        by_cases hn : nav = 0
        · simp [refreshInvestmentNAV, hs, hl, hn]
        · by_cases hb : inv.invested ≠ 0 ∧ inv.date ≠ ""
          · simp [refreshInvestmentNAV, hs, hl, hn, hu, hb, hd]
          · simp [refreshInvestmentNAV, hs, hl, hn, hu, hb]

/-- Price source with every lookup unavailable. -/
def noLatestPrice : String → Option ℚ := fun _ => none

/-- Historical price source with every lookup unavailable. -/
def noHistoricalPrice : String → String → Option ℚ := fun _ _ => none

/-- Witness for C9: with the latest-price lookup unavailable, refreshing the
stored sample investment returns it unchanged. -/
theorem refreshInvestmentNAV_skip_on_failure_witness :
    refreshInvestmentNAV noLatestPrice noHistoricalPrice invStored = invStored :=
  (refreshInvestmentNAV_skip_on_failure noLatestPrice noHistoricalPrice invStored).1 rfl

end FinanceTracker
